import Mathlib

/-!
Shallow embedding of the UI-tree extraction and search engine of
`src/desktop_server.py` (desktop-mcp-server), together with proofs of the
spec's claims about it.

Modelling conventions:
* An accessibility node (`uiautomation` element) is modelled by `UINode`.
  Each property read of the live element may raise an exception; a read is
  therefore an `Option` value, where `none` means "the read raises" and
  `some v` means "the read returns `v`".  A Python `None` result for `Name`
  is indistinguishable from `""` in all the code paths modelled here, so it
  is folded into the string value.  `childrenOk = false` models
  `GetChildren()` raising (yielding no children); `childrenOk = true` means
  enumeration succeeds and yields `children`.
* Python string slicing `s[:200]` is `String.take s 200` (both are by
  characters / code points), `s.lower()` is `pyLower`, and the Python
  substring test `a in b` is `containsSub (pyLower a) (pyLower b)`.
* Machine integers: the coordinates are plain `Int`s and the rectangle
  extents plain `Nat`s; no overflow is relevant at these magnitudes in
  Python (arbitrary precision) so none is modelled.
* The input-injection call `pyautogui.click` is modelled as succeeding;
  no claim under study concerns a failing injection call.
-/

set_option maxRecDepth 20000

/-- Bounding rectangle of an accessibility element, as used by the source:
`rect.left`, `rect.top`, `rect.width()`, `rect.height()`. -/
structure Rect where
  left : Int
  top : Int
  width : Nat
  height : Nat
deriving DecidableEq, Repr

/-- Center point used for clicking: `(left + width // 2, top + height // 2)`
with Python floor division (here `Nat` division, the operands being
nonnegative). -/
def Rect.center (r : Rect) : Int × Int :=
  (r.left + (r.width / 2 : Nat), r.top + (r.height / 2 : Nat))

/-- An accessibility node.  Fields model the element property reads of the
source: `Name`, `ControlTypeName`, `BoundingRectangle`,
`GetValuePattern().Value`, and `GetChildren()`.  `none` (resp.
`childrenOk = false`) models the read raising an exception. -/
inductive UINode : Type where
  | mk (nameRead : Option String) (typeRead : Option String)
       (rectRead : Option Rect) (valueRead : Option String)
       (childrenOk : Bool) (children : List UINode)

/-- Result of reading `element.Name` (`none` = the read raises). -/
def UINode.nameRead : UINode → Option String
  | .mk n _ _ _ _ _ => n

/-- Result of reading `element.ControlTypeName` (`none` = the read raises). -/
def UINode.typeRead : UINode → Option String
  | .mk _ t _ _ _ _ => t

/-- Result of reading `element.BoundingRectangle` (`none` = the read raises). -/
def UINode.rectRead : UINode → Option Rect
  | .mk _ _ r _ _ _ => r

/-- Result of reading `element.GetValuePattern().Value` (`none` = the
pattern read raises or yields nothing). -/
def UINode.valueRead : UINode → Option String
  | .mk _ _ _ v _ _ => v

/-- Whether `element.GetChildren()` succeeds. -/
def UINode.childrenOk : UINode → Bool
  | .mk _ _ _ _ ok _ => ok

/-- The children yielded by a successful `element.GetChildren()`. -/
def UINode.children : UINode → List UINode
  | .mk _ _ _ _ _ cs => cs

/-- Output node of `get_window_text_content`: the dict built by
`get_element_info`, with keys `text`, `value`, `clickable_at`, `children`,
`type`.  An absent optional key is `none`; an absent `children` key is the
empty list (the source only stores the key when the list is non-empty). -/
inductive TreeNode : Type where
  | mk (text : Option String) (value : Option String)
       (clickableAt : Option (Int × Int)) (children : List TreeNode)
       (ctype : String)

/-- Key `text` of the output dict. -/
def TreeNode.text : TreeNode → Option String
  | .mk x _ _ _ _ => x

/-- Key `value` of the output dict. -/
def TreeNode.value : TreeNode → Option String
  | .mk _ v _ _ _ => v

/-- Key `clickable_at` of the output dict. -/
def TreeNode.clickableAt : TreeNode → Option (Int × Int)
  | .mk _ _ c _ _ => c

/-- Key `children` of the output dict (empty when the key is absent). -/
def TreeNode.children : TreeNode → List TreeNode
  | .mk _ _ _ cs _ => cs

/-- Key `type` of the output dict. -/
def TreeNode.ctype : TreeNode → String
  | .mk _ _ _ _ ty => ty

/-- Python `s.lower()` restricted to what the source compares:
character-wise lowercasing. -/
def pyLower (s : String) : List Char := s.data.map Char.toLower

/-- Whether `needle` is an initial segment of `hay`. -/
def listStartsWith : List Char → List Char → Bool
  | _, [] => true
  | [], _ :: _ => false
  | a :: as, b :: bs => a == b && listStartsWith as bs

/-- Python substring containment `needle in hay`. -/
def containsSub (needle : List Char) : List Char → Bool
  | [] => needle.isEmpty
  | h :: t => listStartsWith (h :: t) needle || containsSub needle t

/-- The control types given a `clickable_at` by `get_element_info`
(line 70 of the source). -/
def interactiveTypes : List String :=
  ["Button", "Edit", "ListItem", "MenuItem", "TabItem", "Link", "CheckBox", "RadioButton"]

/-- The visibility test of `get_element_info` (lines 47-52): when the
rectangle read succeeds and the rectangle has zero width or zero height the
node is skipped; a failing rectangle read passes the test. -/
def zero_area (rectR : Option Rect) : Bool :=
  match rectR with
  | some r => r.width == 0 || r.height == 0
  | none => false

/-- Key `text`: `info['text'] = name[:200]` when `name` is truthy. -/
def text_of (name : String) : Option String :=
  if name ≠ "" then some (name.take 200) else none

/-- Key `value`: set only for `Edit` controls whose value read succeeds
with a truthy value, truncated to 200 characters (lines 61-68). -/
def value_of (ctype : String) (valueR : Option String) : Option String :=
  if ctype = "Edit" then
    match valueR with
    | some v => if v ≠ "" then some (v.take 200) else none
    | none => none
  else none

/-- Key `clickable_at`: the rectangle center, only for interactive control
types and only when the rectangle read succeeds (lines 70-78). -/
def clickable_of (ctype : String) (rectR : Option Rect) : Option (Int × Int) :=
  if ctype ∈ interactiveTypes then rectR.map Rect.center else none

/-- Final assembly of `get_element_info` (lines 54-97 minus recursion): the
node is returned only if the dict got a `text`, `value` or `children` key
("Only return if meaningful content"), else `None`. -/
def assemble (name ctype : String) (rectR : Option Rect) (valueR : Option String)
    (kids : List TreeNode) : Option TreeNode :=
  if (text_of name).isSome || (value_of ctype valueR).isSome || !kids.isEmpty then
    some (TreeNode.mk (text_of name) (value_of ctype valueR) (clickable_of ctype rectR)
      kids ctype)
  else none

mutual
/-- The recursive worker `get_element_info(element, depth)` of
`get_window_text_content`, lines 41-99.  `md` is the enclosing (already
clamped) `max_depth`.  Control flow, in source order: depth cutoff
(`depth > max_depth` returns `None`); zero-area skip; `Name` and
`ControlTypeName` reads (a raise is caught by the outer handler, dropping
the node); field assembly; recursion into children only when
`depth < max_depth`, keeping the non-`None` child results. -/
def get_element_info (md : Int) : UINode → Nat → Option TreeNode
  | .mk nameR typeR rectR valueR childOk cs, depth =>
    if (depth : Int) > md then none
    else if zero_area rectR then none
    else
      match nameR, typeR with
      | some name, some ctype =>
        assemble name ctype rectR valueR
          (if (depth : Int) < md then
            (if childOk then get_element_info_list md cs (depth + 1) else [])
          else [])
      | _, _ => none

/-- The `for child in element.GetChildren()` loop of lines 83-86: each
child is processed independently and only non-`None` results are kept. -/
def get_element_info_list (md : Int) : List UINode → Nat → List TreeNode
  | [], _ => []
  | c :: rest, depth =>
    match get_element_info md c depth with
    | some t => t :: get_element_info_list md rest depth
    | none => get_element_info_list md rest depth
end

/-- The tool `get_window_text_content(max_depth)`, lines 34-111.  `fg` is
the result of `auto.GetForegroundControl()` (`none` = no window).  The
caller-supplied depth is clamped by `max_depth = min(max_depth, 5)`; an
unobtainable window or a raising title read yields a top-level error. -/
def get_window_text_content (max_depth : Int) (fg : Option UINode) :
    Except String (String × Option TreeNode) :=
  let md := min max_depth 5
  match fg with
  | none => Except.error "No active window"
  | some w =>
    match w.nameRead with
    | none => Except.error "exception while reading the window"
    | some title => Except.ok (title, get_element_info md w 0)

/-- One entry appended by `search_element` (lines 171-180): the dict with
keys `text`, `type` and, when the rectangle read succeeds, `click_x` and
`click_y`. -/
structure SearchMatch where
  text : String
  ctype : String
  click : Option (Int × Int)
deriving DecidableEq, Repr

/-- The control-type filter test of line 170:
`control_type is None or elem_type == control_type`. -/
def typeOk (ct : Option String) (ty : String) : Bool :=
  match ct with
  | none => true
  | some c => ty == c

/-- The match emitted for a single node by `search_element`, lines 166-180:
empty when the `Name`/`ControlTypeName` reads raise or the node does not
match, otherwise the single appended dict. -/
def UINode.selfMatches (q : String) (ct : Option String) : UINode → List SearchMatch
  | .mk (some name) (some ty) rectR _ _ _ =>
    if containsSub (pyLower q) (pyLower name) && typeOk ct ty then
      [⟨name.take 200, ty, rectR.map Rect.center⟩]
    else []
  | _ => []

mutual
/-- The recursive worker `search_element(element, depth)` of
`_find_element`, lines 161-185: depth cutoff `depth > 6`; `Name` and
`ControlTypeName` reads (a raise skips the node and its subtree); the
self match, then the children in order.  A raising `GetChildren()` keeps
the already appended self match and skips the subtree. -/
def search_element (q : String) (ct : Option String) : UINode → Nat → List SearchMatch
  | n@(.mk _ _ _ _ childOk cs), depth =>
    if 6 < depth then []
    else
      match n.nameRead, n.typeRead with
      | some _, some _ =>
        n.selfMatches q ct ++
          (if childOk then search_element_list q ct cs (depth + 1) else [])
      | _, _ => []

/-- The `for child in element.GetChildren()` loop of lines 182-183:
results of the children are appended in order. -/
def search_element_list (q : String) (ct : Option String) : List UINode → Nat → List SearchMatch
  | [], _ => []
  | c :: rest, depth =>
    search_element q ct c depth ++ search_element_list q ct rest depth
end

/-- One element of the list returned by `_find_element`: a match dict or
the informational `{"message": ...}` dict. -/
inductive FindEntry : Type where
  | found (m : SearchMatch)
  | message (s : String)
deriving DecidableEq, Repr

/-- The helper `_find_element(text, control_type)` (lines 156-199) as
exposed by the tool `find_element` (lines 201-211).  `fg` is
`auto.GetForegroundControl()` (`none` = falsy), `root` is
`auto.GetRootControl()`.  Phase 1 searches the active window; the root
search runs only when `results` is still empty; an empty final list is
replaced by the informational message. -/
def find_element (q : String) (ct : Option String) (fg : Option UINode)
    (root : UINode) : List FindEntry :=
  let phase1 := match fg with
    | some w => search_element q ct w 0
    | none => []
  let results := if phase1.isEmpty then search_element q ct root 2 else phase1
  if results.isEmpty then
    [FindEntry.message ("No elements found containing \x27" ++ q ++ "\x27")]
  else results.map FindEntry.found

/-- The tool `click_element(text, control_type)`, lines 213-235: the first
entry is inspected; a match with coordinates is clicked (the injection call
modelled as succeeding) and confirmed; otherwise the fixed
"Could not find clickable element" report is returned. -/
def click_element (q : String) (ct : Option String) (fg : Option UINode)
    (root : UINode) : String :=
  match find_element q ct fg root with
  | FindEntry.found m :: _ =>
    match m.click with
    | some p =>
      "Clicked \x27" ++ m.text ++ "\x27 at (" ++ toString p.1 ++ ", " ++ toString p.2 ++ ")"
    | none => "Could not find clickable element containing \x27" ++ q ++ "\x27"
  | _ => "Could not find clickable element containing \x27" ++ q ++ "\x27"

/-- The injection performed by `keyboard_action` (modelled outcome). -/
inductive KeyEffect : Type where
  | typed (text : String)
  | pressed (key : String)
  | hot (keys : List String)
deriving DecidableEq, Repr

/-- Python truthiness of an optional string (`not text` is true for both
`None` and `""`). -/
def truthyStr : Option String → Bool
  | none => false
  | some s => !s.isEmpty

/-- Python truthiness of an optional list (`not keys` is true for both
`None` and `[]`). -/
def truthyList : Option (List String) → Bool
  | none => false
  | some l => !l.isEmpty

/-- The tool `keyboard_action(action, text, key, keys, interval)`,
lines 329-357, as a pure function returning the reply string and the
injection performed (`none` = no injection).  The `interval` argument only
spaces the keystrokes in time and is not modelled. -/
def keyboard_action (action : String) (text : Option String) (key : Option String)
    (keys : Option (List String)) : String × Option KeyEffect :=
  if action = "type" then
    if !truthyStr text then ("Error: text required", none)
    else ("Typed: " ++ text.getD "", some (KeyEffect.typed (text.getD "")))
  else if action = "press" then
    if !truthyStr key then ("Error: key required", none)
    else ("Pressed: " ++ key.getD "", some (KeyEffect.pressed (key.getD "")))
  else if action = "hotkey" then
    if !truthyList keys then ("Error: keys required", none)
    else ("Hotkey: " ++ String.intercalate "+" (keys.getD []),
      some (KeyEffect.hot (keys.getD [])))
  else ("Unknown action: " ++ action, none)

/-- Depth of one output node below another inside an emitted tree:
`TreeNode.AtDepth t k s` holds when `s` sits `k` child-steps below `t`. -/
inductive TreeNode.AtDepth : TreeNode → Nat → TreeNode → Prop where
  | refl (t : TreeNode) : TreeNode.AtDepth t 0 t
  | child {t : TreeNode} {c s : TreeNode} {k : Nat} :
      c ∈ t.children → TreeNode.AtDepth c k s → TreeNode.AtDepth t (k + 1) s

/-- Depth of one accessibility node below another in the live tree. -/
inductive UINode.AtDepth : UINode → Nat → UINode → Prop where
  | refl (e : UINode) : UINode.AtDepth e 0 e
  | child {e : UINode} {c s : UINode} {k : Nat} :
      c ∈ e.children → UINode.AtDepth c k s → UINode.AtDepth e (k + 1) s

/-- Concrete zero-area node used for the zero-area search counterexample. -/
def zeroAreaButton : UINode :=
  UINode.mk (some "Cancel") (some "Button") (some ⟨10, 20, 0, 0⟩) none true []

/-- Concrete node whose rectangle read raises, used for the coordinate-less
match scenarios. -/
def cancelNoRect : UINode :=
  UINode.mk (some "Cancel") (some "Button") none none true []

/-- Concrete node matching nothing under study. -/
def unrelatedNode : UINode :=
  UINode.mk (some "zzz") (some "Text") (some ⟨0, 0, 3, 3⟩) none true []

/-- Concrete desktop root named like the query, used for the phase-2
counterexample. -/
def namedDesktopRoot : UINode :=
  UINode.mk (some "Target") (some "Pane") (some ⟨0, 0, 4, 4⟩) none true []

/-- Concrete interactive node with a readable rectangle. -/
def btnNode : UINode :=
  UINode.mk (some "hi") (some "Button") (some ⟨0, 0, 10, 10⟩) none true []

/-- Concrete node whose `Name` read raises but which has a significant
child, used for the failure-isolation counterexample. -/
def nameFailParent : UINode :=
  UINode.mk none (some "Button") (some ⟨0, 0, 10, 10⟩) none true
    [UINode.mk (some "Hello") (some "Text") (some ⟨0, 0, 5, 5⟩) none true []]

/-- A 201-character name, used for the truncation witness. -/
def name201 : String := String.mk (List.replicate 201 'a')

/-- Concrete node carrying the 201-character name. -/
def node201 : UINode :=
  UINode.mk (some name201) (some "Text") none none true []

mutual
/-- Structural strong induction over accessibility nodes. -/
def UINode.inductAux (P : UINode → Prop)
    (step : ∀ nameR typeR rectR valueR childOk cs,
      (∀ c, c ∈ cs → P c) → P (UINode.mk nameR typeR rectR valueR childOk cs)) :
    ∀ e, P e
  | .mk nameR typeR rectR valueR childOk cs =>
    step nameR typeR rectR valueR childOk cs (UINode.inductListAux P step cs)

/-- Structural strong induction over lists of accessibility nodes. -/
def UINode.inductListAux (P : UINode → Prop)
    (step : ∀ nameR typeR rectR valueR childOk cs,
      (∀ c, c ∈ cs → P c) → P (UINode.mk nameR typeR rectR valueR childOk cs)) :
    ∀ cs : List UINode, ∀ c, c ∈ cs → P c
  | [] => fun c hc => absurd hc (List.not_mem_nil c)
  | c0 :: rest => fun c hc =>
    Or.elim (List.mem_cons.mp hc)
      (fun he => he ▸ UINode.inductAux P step c0)
      (fun ht => UINode.inductListAux P step rest c ht)
end

/-! Helper lemmas about the assembly step and the recursions. -/

theorem text_of_isSome (name : String) : (text_of name).isSome = true ↔ name ≠ "" := by
  unfold text_of
  split_ifs with h <;> simp [h]

theorem value_of_isSome (ctype : String) (valueR : Option String) :
    (value_of ctype valueR).isSome = true ↔
      (ctype = "Edit" ∧ ∃ v, valueR = some v ∧ v ≠ "") := by
  cases valueR with
  | none =>
    unfold value_of
    split_ifs with h <;> simp [h]
  | some v =>
    show (if ctype = "Edit" then (if v ≠ "" then some (v.take 200) else none)
        else none).isSome = true ↔ _
    split_ifs with h hv
    · simp [h, hv]
    · simp [h, hv]
    · simp [h]

theorem assemble_isSome (name ctype : String) (rectR : Option Rect)
    (valueR : Option String) (kids : List TreeNode) :
    (assemble name ctype rectR valueR kids).isSome = true ↔
      ((text_of name).isSome = true ∨ (value_of ctype valueR).isSome = true ∨ kids ≠ []) := by
  unfold assemble
  split_ifs with h
  · simp only [Option.isSome_some, true_iff]
    rcases Bool.or_eq_true_iff.mp h with h1 | h2
    · rcases Bool.or_eq_true_iff.mp h1 with h1a | h1b
      · exact Or.inl h1a
      · exact Or.inr (Or.inl h1b)
    · refine Or.inr (Or.inr ?_)
      simpa [List.isEmpty_iff] using h2
  · simp only [Option.isSome_none, Bool.false_eq_true, false_iff]
    intro hcon
    apply h
    rcases hcon with h1 | h2 | h3
    · simp [h1]
    · simp [h2]
    · cases kids with
      | nil => exact absurd rfl h3
      | cons a as => simp

theorem assemble_eq_some (name ctype : String) (rectR : Option Rect)
    (valueR : Option String) (kids : List TreeNode) (t : TreeNode)
    (h : assemble name ctype rectR valueR kids = some t) :
    t = TreeNode.mk (text_of name) (value_of ctype valueR) (clickable_of ctype rectR)
      kids ctype := by
  unfold assemble at h
  split_ifs at h with hc
  exact (Option.some.injEq _ _ ▸ h).symm

theorem zero_area_false (rectR : Option Rect) (h : zero_area rectR = false) :
    ∀ r, rectR = some r → 0 < r.width ∧ 0 < r.height := by
  intro r hr
  subst hr
  unfold zero_area at h
  rcases Bool.or_eq_false_iff.mp h with ⟨h1, h2⟩
  constructor
  · exact Nat.pos_of_ne_zero (by simpa using h1)
  · exact Nat.pos_of_ne_zero (by simpa using h2)

theorem gei_eq (md : Int) (nameR typeR : Option String) (rectR : Option Rect)
    (valueR : Option String) (childOk : Bool) (cs : List UINode) (d : Nat) :
    get_element_info md (.mk nameR typeR rectR valueR childOk cs) d =
      if (d : Int) > md then none
      else if zero_area rectR then none
      else
        match nameR, typeR with
        | some name, some ctype =>
          assemble name ctype rectR valueR
            (if (d : Int) < md then
              (if childOk then get_element_info_list md cs (d + 1) else [])
            else [])
        | _, _ => none := rfl

theorem geil_cons (md : Int) (c : UINode) (rest : List UINode) (d : Nat) :
    get_element_info_list md (c :: rest) d =
      match get_element_info md c d with
      | some t => t :: get_element_info_list md rest d
      | none => get_element_info_list md rest d := rfl

theorem geil_mem (md : Int) (cs : List UINode) (d : Nat) (t : TreeNode) :
    t ∈ get_element_info_list md cs d ↔ ∃ c ∈ cs, get_element_info md c d = some t := by
  induction cs with
  | nil => simp [get_element_info_list]
  | cons c rest ih =>
    rw [geil_cons]
    cases hc : get_element_info md c d with
    | none =>
      simp only [ih]
      constructor
      · rintro ⟨c2, hc2, he⟩
        exact ⟨c2, List.mem_cons_of_mem c hc2, he⟩
      · rintro ⟨c2, hc2, he⟩
        rcases List.mem_cons.mp hc2 with h | h
        · subst h; rw [hc] at he; cases he
        · exact ⟨c2, h, he⟩
    | some t0 =>
      simp only [List.mem_cons, ih]
      constructor
      · rintro (h | ⟨c2, hc2, he⟩)
        · exact ⟨c, Or.inl rfl, h ▸ hc⟩
        · exact ⟨c2, Or.inr hc2, he⟩
      · rintro ⟨c2, hc2, he⟩
        rcases hc2 with h | h
        · subst h; rw [hc] at he
          exact Or.inl (Option.some.inj he).symm
        · exact Or.inr ⟨c2, h, he⟩

theorem gei_some_inv {md : Int} {nameR typeR : Option String} {rectR : Option Rect}
    {valueR : Option String} {childOk : Bool} {cs : List UINode} {d : Nat} {t : TreeNode}
    (h : get_element_info md (.mk nameR typeR rectR valueR childOk cs) d = some t) :
    ∃ name ctype, nameR = some name ∧ typeR = some ctype ∧
      (d : Int) ≤ md ∧ zero_area rectR = false ∧
      t = TreeNode.mk (text_of name) (value_of ctype valueR) (clickable_of ctype rectR)
        (if (d : Int) < md then
          (if childOk then get_element_info_list md cs (d + 1) else [])
        else []) ctype := by
  rw [gei_eq] at h
  by_cases h1 : (d : Int) > md
  · rw [if_pos h1] at h; exact Option.noConfusion h
  rw [if_neg h1] at h
  by_cases h2 : zero_area rectR = true
  · rw [if_pos h2] at h; exact Option.noConfusion h
  rw [if_neg h2] at h
  cases nameR with
  | none => cases typeR <;> exact Option.noConfusion h
  | some name =>
    cases typeR with
    | none => exact Option.noConfusion h
    | some ctype =>
      refine ⟨name, ctype, rfl, rfl, not_lt.mp h1, by simpa using h2, ?_⟩
      exact assemble_eq_some _ _ _ _ _ _ h

theorem gei_le {md : Int} {e : UINode} {d : Nat} {t : TreeNode}
    (h : get_element_info md e d = some t) : (d : Int) ≤ md := by
  obtain ⟨nameR, typeR, rectR, valueR, childOk, cs⟩ := e
  obtain ⟨_, _, _, _, hle, _, _⟩ := gei_some_inv h
  exact hle

theorem gei_children_of {md : Int} {e : UINode} {d : Nat} {t : TreeNode}
    (h : get_element_info md e d = some t) :
    ∀ c ∈ t.children, ∃ e2 ∈ e.children, get_element_info md e2 (d + 1) = some c := by
  obtain ⟨nameR, typeR, rectR, valueR, childOk, cs⟩ := e
  obtain ⟨name, ctype, hn, hty, hle, hza, ht⟩ := gei_some_inv h
  intro c hc
  rw [ht] at hc
  simp only [TreeNode.children] at hc
  split_ifs at hc with h1 h2
  · obtain ⟨e2, he2, hrec⟩ := (geil_mem md cs (d + 1) c).mp hc
    exact ⟨e2, by simpa [UINode.children] using he2, hrec⟩
  · cases hc
  · cases hc

theorem gei_depth (md : Int) : ∀ {t s : TreeNode} {k : Nat}, TreeNode.AtDepth t k s →
    ∀ {e : UINode} {d : Nat}, get_element_info md e d = some t → (d : Int) + k ≤ md := by
  intro t s k hAt
  induction hAt with
  | refl t =>
    intro e d h
    simpa using gei_le h
  | child hc hAt ih =>
    intro e d h
    obtain ⟨e2, _, hrec⟩ := gei_children_of h _ hc
    have := ih hrec
    push_cast at this ⊢
    omega

theorem sei_eq (q : String) (ct : Option String) (nameR typeR : Option String)
    (rectR : Option Rect) (valueR : Option String) (childOk : Bool) (cs : List UINode)
    (d : Nat) :
    search_element q ct (.mk nameR typeR rectR valueR childOk cs) d =
      if 6 < d then []
      else
        match nameR, typeR with
        | some _, some _ =>
          (UINode.mk nameR typeR rectR valueR childOk cs).selfMatches q ct ++
            (if childOk then search_element_list q ct cs (d + 1) else [])
        | _, _ => [] := rfl

theorem seil_cons (q : String) (ct : Option String) (c : UINode) (rest : List UINode)
    (d : Nat) :
    search_element_list q ct (c :: rest) d =
      search_element q ct c d ++ search_element_list q ct rest d := rfl

theorem seil_mem (q : String) (ct : Option String) (cs : List UINode) (d : Nat)
    (m : SearchMatch) :
    m ∈ search_element_list q ct cs d ↔ ∃ c ∈ cs, m ∈ search_element q ct c d := by
  induction cs with
  | nil => simp [search_element_list]
  | cons c rest ih =>
    rw [seil_cons]
    simp only [List.mem_append, ih, List.mem_cons]
    constructor
    · rintro (h | ⟨c2, hc2, hm⟩)
      · exact ⟨c, Or.inl rfl, h⟩
      · exact ⟨c2, Or.inr hc2, hm⟩
    · rintro ⟨c2, hc2 | hc2, hm⟩
      · exact Or.inl (hc2 ▸ hm)
      · exact Or.inr ⟨c2, hc2, hm⟩

theorem selfMatches_inv {q : String} {ct : Option String} {n : UINode} {m : SearchMatch}
    (h : m ∈ n.selfMatches q ct) :
    ∃ name ty, n.nameRead = some name ∧ n.typeRead = some ty ∧
      containsSub (pyLower q) (pyLower name) = true ∧ typeOk ct ty = true ∧
      m = ⟨name.take 200, ty, n.rectRead.map Rect.center⟩ := by
  obtain ⟨nR, tR, rR, vR, ok, cs⟩ := n
  cases nR with
  | none => cases tR <;> simp [UINode.selfMatches] at h
  | some name =>
    cases tR with
    | none => simp [UINode.selfMatches] at h
    | some ty =>
      simp only [UINode.selfMatches] at h
      by_cases hcond : (containsSub (pyLower q) (pyLower name) && typeOk ct ty) = true
      · rw [if_pos hcond] at h
        rcases Bool.and_eq_true_iff.mp hcond with ⟨h1, h2⟩
        refine ⟨name, ty, rfl, rfl, h1, h2, ?_⟩
        simpa [UINode.rectRead] using List.mem_singleton.mp h
      · rw [if_neg hcond] at h
        simp at h

theorem search_mem (q : String) (ct : Option String) :
    ∀ (e : UINode) (d : Nat) (m : SearchMatch), m ∈ search_element q ct e d →
      ∃ n k, UINode.AtDepth e k n ∧ d + k ≤ 6 ∧ m ∈ n.selfMatches q ct := by
  intro e
  refine UINode.inductAux
    (fun e => ∀ (d : Nat) (m : SearchMatch), m ∈ search_element q ct e d →
      ∃ n k, UINode.AtDepth e k n ∧ d + k ≤ 6 ∧ m ∈ n.selfMatches q ct) ?_ e
  intro nameR typeR rectR valueR childOk cs ih d m hm
  rw [sei_eq] at hm
  by_cases h6 : 6 < d
  · rw [if_pos h6] at hm; simp at hm
  rw [if_neg h6] at hm
  cases nameR with
  | none => cases typeR <;> simp at hm
  | some name =>
    cases typeR with
    | none => simp at hm
    | some ty =>
      rcases List.mem_append.mp hm with hself | hkids
      · exact ⟨_, 0, UINode.AtDepth.refl _, by omega, hself⟩
      · cases childOk with
        | false => simp at hkids
        | true =>
          rw [if_pos rfl] at hkids
          obtain ⟨c, hc, hmc⟩ := (seil_mem q ct cs (d + 1) m).mp hkids
          obtain ⟨n, k, hAt, hk, hmn⟩ := ih c hc (d + 1) m hmc
          refine ⟨n, k + 1, UINode.AtDepth.child ?_ hAt, by omega, hmn⟩
          simpa [UINode.children] using hc

theorem take_length (s : String) (n : Nat) : (s.take n).length = min n s.length := by
  show (s.take n).data.length = min n s.data.length
  rw [String.data_take]
  exact List.length_take n s.data

theorem take_of_le (s : String) (n : Nat) (h : s.length ≤ n) : s.take n = s := by
  apply String.ext
  rw [String.data_take]
  exact List.take_of_length_le h

theorem center_within (r : Rect) :
    r.left ≤ (Rect.center r).1 ∧ (Rect.center r).1 ≤ r.left + r.width ∧
    r.top ≤ (Rect.center r).2 ∧ (Rect.center r).2 ≤ r.top + r.height := by
  unfold Rect.center
  have hw : r.width / 2 ≤ r.width := Nat.div_le_self _ _
  have hh : r.height / 2 ≤ r.height := Nat.div_le_self _ _
  refine ⟨?_, ?_, ?_, ?_⟩ <;> simp <;> omega

/-! Claim theorems. -/

/-- C2 (confirmed): every `TreeNode` returned by `get_window_text_content`
with requested depth `d` lies at depth at most `min d 5` from the
extraction root (the caller-supplied depth is clamped to the hard cap 5),
and a node at depth greater than the clamped bound is pruned to "no node",
not an error. -/
theorem claim_C2 :
    (∀ (d : Int) (fg : Option UINode) (title : String) (t : TreeNode),
      get_window_text_content d fg = Except.ok (title, some t) →
      ∀ (k : Nat) (s : TreeNode), TreeNode.AtDepth t k s → (k : Int) ≤ min d 5) ∧
    (∀ (md : Int) (e : UINode) (dep : Nat), (dep : Int) > md →
      get_element_info md e dep = none) := by
  constructor
  · intro d fg title t h k s hAt
    cases fg with
    | none => exact absurd h (by simp [get_window_text_content])
    | some w =>
      simp only [get_window_text_content] at h
      cases hw : w.nameRead with
      | none => rw [hw] at h; exact Except.noConfusion h
      | some title2 =>
        rw [hw] at h
        have hp := Except.ok.inj h
        have hgei : get_element_info (min d 5) w 0 = some t := by
          have := congrArg Prod.snd hp
          simpa using this
        have := gei_depth (min d 5) hAt hgei
        simpa using this
  · intro md e dep hgt
    obtain ⟨nR, tR, rR, vR, ok, cs⟩ := e
    rw [gei_eq, if_pos hgt]

/-- Witness for C2 at a concrete window. -/
theorem claim_C2_witness :
    (((0 : Nat) : Int) ≤ min (3 : Int) 5) ∧ get_element_info (-1) unrelatedNode 0 = none := by
  constructor
  · exact claim_C2.1 3 (some (UINode.mk (some "hi") (some "Text") none none true []))
      "hi" (TreeNode.mk (some (String.take "hi" 200)) none none [] "Text") (by rfl) 0 _
      (TreeNode.AtDepth.refl _)
  · exact claim_C2.2 (-1) unrelatedNode 0 (by decide)

theorem gei_eq_names (md : Int) (name ctype : String) (rectR : Option Rect)
    (valueR : Option String) (childOk : Bool) (cs : List UINode) (d : Nat) :
    get_element_info md (.mk (some name) (some ctype) rectR valueR childOk cs) d =
      if (d : Int) > md then none
      else if zero_area rectR then none
      else assemble name ctype rectR valueR
        (if (d : Int) < md then
          (if childOk then get_element_info_list md cs (d + 1) else [])
        else []) := rfl

/-- C4 (confirmed): for a node processed within the depth bound, whose name
and control-type reads succeed and which passes the visibility check, a
`TreeNode` is emitted by the extraction recursion iff the node is
significant: it has a non-empty name, or a non-empty editable value on an
`Edit` control, or at least one child that is itself emitted (children are
only gathered while `depth < max_depth`, so below the bound no child is
emitted); otherwise no node at all is produced for it. -/
theorem claim_C4 (md : Int) (nameR typeR : Option String) (rectR : Option Rect)
    (valueR : Option String) (childOk : Bool) (cs : List UINode) (d : Nat)
    (name ctype : String)
    (hn : nameR = some name) (ht : typeR = some ctype)
    (hd : (d : Int) ≤ md) (hza : zero_area rectR = false) :
    (get_element_info md (.mk nameR typeR rectR valueR childOk cs) d).isSome = true ↔
      (name ≠ "" ∨
       (ctype = "Edit" ∧ ∃ v, valueR = some v ∧ v ≠ "") ∨
       ((d : Int) < md ∧ childOk = true ∧
        ∃ c ∈ cs, (get_element_info md c (d + 1)).isSome = true)) := by
  subst hn
  subst ht
  have hkids : ((if (d : Int) < md then
        (if childOk then get_element_info_list md cs (d + 1) else []) else []) ≠ []) ↔
      ((d : Int) < md ∧ childOk = true ∧
        ∃ c ∈ cs, (get_element_info md c (d + 1)).isSome = true) := by
    split_ifs with h1 h2
    · constructor
      · intro hne
        rcases List.exists_mem_of_ne_nil _ hne with ⟨t, htm⟩
        obtain ⟨c, hc, he⟩ := (geil_mem md cs (d + 1) t).mp htm
        exact ⟨h1, h2, c, hc, by simp [he]⟩
      · rintro ⟨_, _, c, hc, hsome⟩
        obtain ⟨t, ht2⟩ := Option.isSome_iff_exists.mp hsome
        intro hnil
        have hmem := (geil_mem md cs (d + 1) t).mpr ⟨c, hc, ht2⟩
        rw [hnil] at hmem
        exact List.not_mem_nil t hmem
    · simp [h2]
    · simp [h1]
  rw [gei_eq_names, if_neg (not_lt.mpr hd), if_neg (by simp [hza]),
    assemble_isSome, text_of_isSome, value_of_isSome, hkids]

/-- Witness for C4 at a concrete named node. -/
theorem claim_C4_witness :
    (get_element_info 5 (.mk (some "x") (some "Text") none none true []) 0).isSome = true ↔
      ("x" ≠ "" ∨
       ("Text" = "Edit" ∧ ∃ v, (none : Option String) = some v ∧ v ≠ "") ∨
       ((0 : Int) < 5 ∧ true = true ∧
        ∃ c ∈ ([] : List UINode), (get_element_info 5 c (0 + 1)).isSome = true)) :=
  claim_C4 5 (some "x") (some "Text") none none true [] 0 "x" "Text" rfl rfl
    (by decide) rfl

/-- C1 counterexample: the search path performs no zero-area check, so a
matching node whose bounding rectangle has zero width and zero height still
yields a `SearchMatch`, complete with `click_x`/`click_y` computed from the
zero-area rectangle — refuting the claim that no `SearchMatch` is emitted
for a zero-area node and that no zero-area rectangle yields click
coordinates. -/
theorem claim_C1_counterexample :
    search_element "Cancel" none zeroAreaButton 0 =
      [⟨"Cancel", "Button", some (10, 20)⟩] ∧
    zeroAreaButton.rectRead = some ⟨10, 20, 0, 0⟩ ∧
    (Rect.mk 10 20 0 0).width = 0 ∧ (Rect.mk 10 20 0 0).height = 0 := by
  exact ⟨by rfl, rfl, rfl, rfl⟩

/-- C1 amended (proved): the tree-extraction path honours the zero-area
exclusion — an emitted `TreeNode`'s source node never has a readable
zero-width or zero-height rectangle (hence no `clickableAt` from a
zero-area rectangle), and recursively every emitted child arises from an
emission on a source child, so the exclusion holds at every depth.  The
search path has no such check (see the counterexample). -/
theorem claim_C1_amended (md : Int) (e : UINode) (d : Nat) (t : TreeNode)
    (h : get_element_info md e d = some t) :
    (∀ r, e.rectRead = some r → 0 < r.width ∧ 0 < r.height) ∧
    (∀ c ∈ t.children, ∃ e2 ∈ e.children, get_element_info md e2 (d + 1) = some c) := by
  obtain ⟨nR, tR, rR, vR, ok, cs⟩ := e
  obtain ⟨name, ctype, hn, ht2, hle, hza, htt⟩ := gei_some_inv h
  exact ⟨zero_area_false _ hza, gei_children_of h⟩

/-- Witness for the amended C1 at a concrete visible node. -/
theorem claim_C1_witness :
    (∀ r, unrelatedNode.rectRead = some r → 0 < r.width ∧ 0 < r.height) ∧
    (∀ c ∈ (TreeNode.mk (some "zzz") none none [] "Text").children,
      ∃ e2 ∈ unrelatedNode.children, get_element_info 5 e2 (0 + 1) = some c) :=
  claim_C1_amended 5 unrelatedNode 0 (TreeNode.mk (some "zzz") none none [] "Text")
    (by rfl)

/-- C7 (confirmed): every `clickable_at` emitted by the tree extractor and
every `click_x`/`click_y` emitted by the search engine is the point
`(left + width // 2, top + height // 2)` of the originating node's
bounding rectangle, computed with floor division, and that point lies
within the rectangle (taking the rectangle as the closed region from
`(left, top)` to `(left + width, top + height)`). -/
theorem claim_C7 :
    (∀ (md : Int) (e : UINode) (d : Nat) (t : TreeNode) (p : Int × Int),
      get_element_info md e d = some t → t.clickableAt = some p →
      ∃ r, e.rectRead = some r ∧ p = Rect.center r ∧
        r.left ≤ p.1 ∧ p.1 ≤ r.left + r.width ∧
        r.top ≤ p.2 ∧ p.2 ≤ r.top + r.height) ∧
    (∀ (q : String) (ct : Option String) (e : UINode) (d : Nat) (m : SearchMatch)
      (p : Int × Int), m ∈ search_element q ct e d → m.click = some p →
      ∃ n k r, UINode.AtDepth e k n ∧ n.rectRead = some r ∧ p = Rect.center r ∧
        r.left ≤ p.1 ∧ p.1 ≤ r.left + r.width ∧
        r.top ≤ p.2 ∧ p.2 ≤ r.top + r.height) := by
  constructor
  · intro md e d t p h hclick
    obtain ⟨nR, tR, rR, vR, ok, cs⟩ := e
    obtain ⟨name, ctype, hn, ht2, hle, hza, htt⟩ := gei_some_inv h
    rw [htt] at hclick
    simp only [TreeNode.clickableAt] at hclick
    unfold clickable_of at hclick
    by_cases hint : ctype ∈ interactiveTypes
    · rw [if_pos hint] at hclick
      cases rR with
      | none => simp at hclick
      | some r =>
        simp only [Option.map_some'] at hclick
        have hp := (Option.some.inj hclick).symm
        subst hp
        have hin := center_within r
        exact ⟨r, rfl, rfl, hin.1, hin.2.1, hin.2.2.1, hin.2.2.2⟩
    · rw [if_neg hint] at hclick
      exact absurd hclick (by simp)
  · intro q ct e d m p hm hclick
    obtain ⟨n, k, hAt, hk, hself⟩ := search_mem q ct e d m hm
    obtain ⟨name, ty, hn, hty, hcont, htok, hmeq⟩ := selfMatches_inv hself
    rw [hmeq] at hclick
    simp only at hclick
    cases hr : n.rectRead with
    | none => rw [hr] at hclick; simp at hclick
    | some r =>
      rw [hr] at hclick
      simp only [Option.map_some'] at hclick
      have hp := (Option.some.inj hclick).symm
      subst hp
      have hin := center_within r
      exact ⟨n, k, r, hAt, hr, rfl, hin.1, hin.2.1, hin.2.2.1, hin.2.2.2⟩

/-- Witness for C7 at a concrete button. -/
theorem claim_C7_witness :
    ∃ r, btnNode.rectRead = some r ∧ ((5 : Int), (5 : Int)) = Rect.center r ∧
      r.left ≤ (5 : Int) ∧ (5 : Int) ≤ r.left + r.width ∧
      r.top ≤ (5 : Int) ∧ (5 : Int) ≤ r.top + r.height :=
  claim_C7.1 5 btnNode 0 (TreeNode.mk (some "hi") none (some (5, 5)) [] "Button")
    (5, 5) (by rfl) rfl

/-- C3 (confirmed): the phase-2 broadened search from the desktop root runs
iff the phase-1 search over the active window's subtree produced zero
matches.  When phase 1 yields at least one match, the result is exactly the
phase-1 matches and does not depend on the desktop root at all; when phase
1 is empty, the result is determined by the root search (with the
informational message when that is empty too). -/
theorem claim_C3 (q : String) (ct : Option String) (w root : UINode) :
    (search_element q ct w 0 ≠ [] →
      find_element q ct (some w) root = (search_element q ct w 0).map FindEntry.found ∧
      ∀ root2, find_element q ct (some w) root2 = find_element q ct (some w) root) ∧
    (search_element q ct w 0 = [] →
      find_element q ct (some w) root =
        (if (search_element q ct root 2).isEmpty then
          [FindEntry.message ("No elements found containing \x27" ++ q ++ "\x27")]
        else (search_element q ct root 2).map FindEntry.found)) := by
  constructor
  · intro hne
    have hni : (search_element q ct w 0).isEmpty = false :=
      List.isEmpty_eq_false.mpr hne
    constructor
    · simp [find_element, hni]
    · intro root2
      simp [find_element, hni]
  · intro hemp
    simp [find_element, hemp]

/-- Witness for C3: a non-empty phase-1 result is returned as is,
independently of the desktop root. -/
theorem claim_C3_witness :
    find_element "zzz" none (some unrelatedNode) btnNode =
      (search_element "zzz" none unrelatedNode 0).map FindEntry.found ∧
    ∀ root2, find_element "zzz" none (some unrelatedNode) root2 =
      find_element "zzz" none (some unrelatedNode) btnNode :=
  (claim_C3 "zzz" none unrelatedNode btnNode).1 (by decide)

/-- C6 counterexample: when the phase-2 broadened search runs, the desktop
root itself — a node in the "top two structural levels" — is examined and
matched: the search starting at depth counter 2 matches the root node
`namedDesktopRoot` and returns it, so no structural levels are skipped,
refuting the claim that nodes in those two levels are not matched. -/
theorem claim_C6_counterexample :
    find_element "Target" none (some unrelatedNode) namedDesktopRoot =
      [FindEntry.found ⟨"Target", "Pane", some (2, 2)⟩] ∧
    namedDesktopRoot.nameRead = some "Target" ∧
    search_element "Target" none unrelatedNode 0 = [] := by
  exact ⟨by rfl, rfl, by rfl⟩

/-- C6 amended (proved): the phase-2 walk starts from the desktop root with
the depth counter initialised to 2 and the same cutoff 6, so it is
cost-bounded: every match comes from a node at most 4 levels below the
desktop root.  No structural levels are skipped: whenever the root's name
and type reads succeed, its own matches head the phase-2 result. -/
theorem claim_C6_amended :
    (∀ (q : String) (ct : Option String) (root : UINode) (m : SearchMatch),
      m ∈ search_element q ct root 2 →
      ∃ n k, UINode.AtDepth root k n ∧ k ≤ 4 ∧ m ∈ n.selfMatches q ct) ∧
    (∀ (q : String) (ct : Option String) (nameR typeR : Option String)
      (rectR : Option Rect) (valueR : Option String) (childOk : Bool)
      (cs : List UINode) (na ty : String),
      nameR = some na → typeR = some ty →
      ∃ rest, search_element q ct (.mk nameR typeR rectR valueR childOk cs) 2 =
        (UINode.mk nameR typeR rectR valueR childOk cs).selfMatches q ct ++ rest) := by
  constructor
  · intro q ct root m hm
    obtain ⟨n, k, hAt, hk, hself⟩ := search_mem q ct root 2 m hm
    exact ⟨n, k, hAt, by omega, hself⟩
  · intro q ct nameR typeR rectR valueR childOk cs na ty hn ht
    subst hn
    subst ht
    rw [sei_eq, if_neg (by decide)]
    exact ⟨_, rfl⟩

/-- Witness for the amended C6 at the concrete desktop root. -/
theorem claim_C6_witness :
    ∃ n k, UINode.AtDepth namedDesktopRoot k n ∧ k ≤ 4 ∧
      (⟨"Target", "Pane", some (2, 2)⟩ : SearchMatch) ∈ n.selfMatches "Target" none :=
  claim_C6_amended.1 "Target" none namedDesktopRoot ⟨"Target", "Pane", some (2, 2)⟩
    (by decide)

/-- C5 counterexample: `click_element` produces the *same* report string
when the first match lacks coordinates and when no element matched at all,
so the two situations are not distinct at the `click_element` interface.
In the first scenario the search finds a match (whose rectangle read
raised, hence no coordinates); in the second it finds nothing and returns
its informational message; `click_element` maps both to the identical
"Could not find clickable element containing 'Cancel'" string. -/
theorem claim_C5_counterexample :
    click_element "Cancel" none (some cancelNoRect) unrelatedNode =
      "Could not find clickable element containing \x27Cancel\x27" ∧
    click_element "Cancel" none (some unrelatedNode) unrelatedNode =
      "Could not find clickable element containing \x27Cancel\x27" ∧
    find_element "Cancel" none (some cancelNoRect) unrelatedNode =
      [FindEntry.found ⟨"Cancel", "Button", none⟩] ∧
    find_element "Cancel" none (some unrelatedNode) unrelatedNode =
      [FindEntry.message "No elements found containing \x27Cancel\x27"] := by
  exact ⟨by rfl, by rfl, by rfl, by rfl⟩

/-- C5 amended (proved): `click_element` takes the first entry returned by
the search: a first match with coordinates is clicked and confirmed with
the matched text and coordinates; a first match without coordinates and the
no-match informational entry both yield the same
"Could not find clickable element containing ..." report. -/
theorem claim_C5_amended (q : String) (ct : Option String) (fg : Option UINode)
    (root : UINode) :
    (∀ m rest, find_element q ct fg root = FindEntry.found m :: rest →
      ∀ x y, m.click = some (x, y) →
      click_element q ct fg root =
        "Clicked \x27" ++ m.text ++ "\x27 at (" ++ toString x ++ ", " ++ toString y ++ ")") ∧
    (∀ m rest, find_element q ct fg root = FindEntry.found m :: rest → m.click = none →
      click_element q ct fg root =
        "Could not find clickable element containing \x27" ++ q ++ "\x27") ∧
    (∀ s rest, find_element q ct fg root = FindEntry.message s :: rest →
      click_element q ct fg root =
        "Could not find clickable element containing \x27" ++ q ++ "\x27") := by
  refine ⟨?_, ?_, ?_⟩
  · intro m rest h x y hxy
    unfold click_element
    rw [h]
    show (match m.click with
      | some p =>
        "Clicked \x27" ++ m.text ++ "\x27 at (" ++ toString p.1 ++ ", " ++ toString p.2 ++ ")"
      | none => "Could not find clickable element containing \x27" ++ q ++ "\x27") = _
    rw [hxy]
  · intro m rest h hnone
    unfold click_element
    rw [h]
    show (match m.click with
      | some p =>
        "Clicked \x27" ++ m.text ++ "\x27 at (" ++ toString p.1 ++ ", " ++ toString p.2 ++ ")"
      | none => "Could not find clickable element containing \x27" ++ q ++ "\x27") = _
    rw [hnone]
  · intro s rest h
    unfold click_element
    rw [h]

/-- Witness for the amended C5: a first match with coordinates is clicked
and confirmed. -/
theorem claim_C5_witness :
    click_element "hi" none (some btnNode) unrelatedNode =
      "Clicked \x27" ++ "hi" ++ "\x27 at (" ++ toString (5 : Int) ++ ", " ++
        toString (5 : Int) ++ ")" :=
  (claim_C5_amended "hi" none (some btnNode) unrelatedNode).1
    ⟨"hi", "Button", some (5, 5)⟩ [] (by rfl) 5 5 rfl

/-- C8 counterexample: a failing `Name` read does not merely yield an
absent `text` for that node: it drops the node *and its entire subtree*
from both the extraction and the search, even though the subtree holds a
significant (matching) child — refuting the conjunct that a failing
individual property read yields "absent" for that property only. -/
theorem claim_C8_counterexample :
    get_element_info 5 nameFailParent 0 = none ∧
    get_element_info 5 (UINode.mk (some "Hello") (some "Text") (some ⟨0, 0, 5, 5⟩)
      none true []) 1 = some (TreeNode.mk (some "Hello") none none [] "Text") ∧
    nameFailParent.nameRead = none ∧
    search_element "Hello" none nameFailParent 0 = [] := by
  exact ⟨by rfl, by rfl, rfl, by rfl⟩

theorem clickable_of_none (ty : String) : clickable_of ty none = none := by
  unfold clickable_of
  split_ifs <;> rfl

theorem value_of_noneRead (ty : String) : value_of ty none = none := by
  unfold value_of
  split_ifs <;> rfl

theorem assemble_of_name (name ty : String) (rectR : Option Rect)
    (valueR : Option String) (kids : List TreeNode) (hname : name ≠ "") :
    assemble name ty rectR valueR kids =
      some (TreeNode.mk (text_of name) (value_of ty valueR) (clickable_of ty rectR)
        kids ty) := by
  unfold assemble
  rw [if_pos]
  have h : (text_of name).isSome = true := (text_of_isSome name).mpr hname
  simp [h]

/-- C8 amended (proved): per-node failure is isolated — a failing node is
dropped with its subtree while each sibling is processed independently
(the gathered results are exactly the per-child results), so the
surrounding operation never aborts.  The individually guarded reads keep
their failures local to the property, on a node that is significant
independently of them (non-empty name): a failing bounding-rectangle read
only omits `clickable_at`, a failing editable-value read only omits
`value`, and a failing children enumeration only omits the children — in
the search it keeps the already-recorded self match and merely skips the
subtree.  A failing `Name` or `ControlTypeName` read, however, is not
property-local: it drops the node and its entire subtree, in extraction
and in search alike. -/
theorem claim_C8_amended :
    (∀ (md : Int) (cs : List UINode) (d : Nat),
      get_element_info_list md cs d = cs.filterMap (fun c => get_element_info md c d)) ∧
    (∀ (q : String) (ct : Option String) (cs : List UINode) (d : Nat),
      search_element_list q ct cs d =
        (cs.map (fun c => search_element q ct c d)).flatten) ∧
    (∀ (md : Int) (name ty : String) (valueR : Option String) (childOk : Bool)
      (cs : List UINode) (d : Nat), name ≠ "" → (d : Int) ≤ md →
      get_element_info md (.mk (some name) (some ty) none valueR childOk cs) d =
        some (TreeNode.mk (text_of name) (value_of ty valueR) none
          (if (d : Int) < md then
            (if childOk then get_element_info_list md cs (d + 1) else []) else []) ty)) ∧
    (∀ (md : Int) (name ty : String) (rectR : Option Rect) (childOk : Bool)
      (cs : List UINode) (d : Nat), name ≠ "" → (d : Int) ≤ md →
      zero_area rectR = false →
      get_element_info md (.mk (some name) (some ty) rectR none childOk cs) d =
        some (TreeNode.mk (text_of name) none (clickable_of ty rectR)
          (if (d : Int) < md then
            (if childOk then get_element_info_list md cs (d + 1) else []) else []) ty)) ∧
    (∀ (md : Int) (name ty : String) (rectR : Option Rect) (valueR : Option String)
      (cs : List UINode) (d : Nat), name ≠ "" → (d : Int) ≤ md →
      zero_area rectR = false →
      get_element_info md (.mk (some name) (some ty) rectR valueR false cs) d =
        some (TreeNode.mk (text_of name) (value_of ty valueR) (clickable_of ty rectR)
          [] ty)) ∧
    (∀ (q : String) (ct : Option String) (name ty : String) (rectR : Option Rect)
      (valueR : Option String) (cs : List UINode) (d : Nat), d ≤ 6 →
      search_element q ct (.mk (some name) (some ty) rectR valueR false cs) d =
        (UINode.mk (some name) (some ty) rectR valueR false cs).selfMatches q ct) ∧
    (∀ (md : Int) (typeR : Option String) (rectR : Option Rect)
      (valueR : Option String) (childOk : Bool) (cs : List UINode) (d : Nat),
      get_element_info md (.mk none typeR rectR valueR childOk cs) d = none) ∧
    (∀ (q : String) (ct : Option String) (typeR : Option String)
      (rectR : Option Rect) (valueR : Option String) (childOk : Bool)
      (cs : List UINode) (d : Nat),
      search_element q ct (.mk none typeR rectR valueR childOk cs) d = []) ∧
    (∀ (md : Int) (nameR : Option String) (rectR : Option Rect)
      (valueR : Option String) (childOk : Bool) (cs : List UINode) (d : Nat),
      get_element_info md (.mk nameR none rectR valueR childOk cs) d = none) ∧
    (∀ (q : String) (ct : Option String) (nameR : Option String)
      (rectR : Option Rect) (valueR : Option String) (childOk : Bool)
      (cs : List UINode) (d : Nat),
      search_element q ct (.mk nameR none rectR valueR childOk cs) d = []) := by
  refine ⟨?_, ?_, ?_, ?_, ?_, ?_, ?_, ?_, ?_, ?_⟩
  · intro md cs d
    induction cs with
    | nil => rfl
    | cons c rest ih =>
      rw [geil_cons]
      cases hc : get_element_info md c d with
      | none =>
        rw [@List.filterMap_cons_none _ _ (fun c => get_element_info md c d) c rest hc, ih]
      | some t =>
        rw [@List.filterMap_cons_some _ _ (fun c => get_element_info md c d) c rest t hc, ih]
  · intro q ct cs d
    induction cs with
    | nil => rfl
    | cons c rest ih =>
      rw [seil_cons, ih]
      simp [List.flatten]
  · intro md name ty valueR childOk cs d hname hd
    rw [gei_eq_names, if_neg (not_lt.mpr hd), if_neg (by decide),
      assemble_of_name name ty none valueR _ hname, clickable_of_none]
  · intro md name ty rectR childOk cs d hname hd hza
    rw [gei_eq_names, if_neg (not_lt.mpr hd), if_neg (by simp [hza]),
      assemble_of_name name ty rectR none _ hname, value_of_noneRead]
  · intro md name ty rectR valueR cs d hname hd hza
    rw [gei_eq_names, if_neg (not_lt.mpr hd), if_neg (by simp [hza]),
      assemble_of_name name ty rectR valueR _ hname]
    have hk : (if (d : Int) < md then
        (if (false : Bool) = true then get_element_info_list md cs (d + 1) else [])
      else []) = ([] : List TreeNode) := by split_ifs <;> first | rfl | contradiction
    rw [hk]
  · intro q ct name ty rectR valueR cs d hd6
    rw [sei_eq, if_neg (not_lt.mpr hd6)]
    show (UINode.mk (some name) (some ty) rectR valueR false cs).selfMatches q ct ++
        (if (false : Bool) = true then search_element_list q ct cs (d + 1) else []) = _
    simp
  · intro md typeR rectR valueR childOk cs d
    rw [gei_eq]
    split_ifs <;> cases typeR <;> rfl
  · intro q ct typeR rectR valueR childOk cs d
    rw [sei_eq]
    split_ifs <;> cases typeR <;> rfl
  · intro md nameR rectR valueR childOk cs d
    rw [gei_eq]
    split_ifs <;> cases nameR <;> rfl
  · intro q ct nameR rectR valueR childOk cs d
    rw [sei_eq]
    split_ifs <;> cases nameR <;> rfl

/-- Witness for the amended C8, exercising each property-local failure at a
concrete node: a raising rectangle read (node still emitted, no
`clickable_at`), a raising value read on an `Edit` control (node still
emitted, no `value`), and a raising children enumeration (node still
emitted with no children in extraction; self match kept in search). -/
theorem claim_C8_witness :
    (get_element_info 5 (.mk (some "A") (some "Button") none none true []) 0 =
      some (TreeNode.mk (text_of "A") (value_of "Button" none) none
        (if ((0 : Nat) : Int) < 5 then
          (if (true : Bool) = true then get_element_info_list 5 [] (0 + 1) else [])
        else []) "Button")) ∧
    (get_element_info 5 (.mk (some "E") (some "Edit") (some ⟨0, 0, 8, 8⟩) none true []) 0 =
      some (TreeNode.mk (text_of "E") none (clickable_of "Edit" (some ⟨0, 0, 8, 8⟩))
        (if ((0 : Nat) : Int) < 5 then
          (if (true : Bool) = true then get_element_info_list 5 [] (0 + 1) else [])
        else []) "Edit")) ∧
    (get_element_info 5 (.mk (some "A") (some "Text") (some ⟨0, 0, 8, 8⟩) none false
      [unrelatedNode]) 0 =
      some (TreeNode.mk (text_of "A") (value_of "Text" none)
        (clickable_of "Text" (some ⟨0, 0, 8, 8⟩)) [] "Text")) ∧
    (search_element "zzz" none (.mk (some "zzz") (some "Text") (some ⟨0, 0, 3, 3⟩) none
      false [unrelatedNode]) 0 =
      (UINode.mk (some "zzz") (some "Text") (some ⟨0, 0, 3, 3⟩) none
        false [unrelatedNode]).selfMatches "zzz" none) :=
  ⟨claim_C8_amended.2.2.1 5 "A" "Button" none true [] 0 (by decide) (by decide),
   claim_C8_amended.2.2.2.1 5 "E" "Edit" (some ⟨0, 0, 8, 8⟩) true [] 0 (by decide)
     (by decide) rfl,
   claim_C8_amended.2.2.2.2.1 5 "A" "Text" (some ⟨0, 0, 8, 8⟩) none [unrelatedNode] 0
     (by decide) (by decide) rfl,
   claim_C8_amended.2.2.2.2.2.1 "zzz" none "zzz" "Text" (some ⟨0, 0, 3, 3⟩) none
     [unrelatedNode] 0 (by decide)⟩

/-- C9 (confirmed): the text truncation in tree and search output is the
fixed 200-character cut `name[:200]`: the emitted `text` (and `value` for
`Edit` controls, and the `SearchMatch` text) is exactly the first 200
characters of the read string, so a 200-character name is preserved in
full and a 201-character name is cut to its first 200 characters. -/
theorem claim_C9 :
    (∀ (md : Int) (e : UINode) (d : Nat) (t : TreeNode) (name : String),
      get_element_info md e d = some t → e.nameRead = some name → name ≠ "" →
      (t.text = some (name.take 200) ∧
       (name.length ≤ 200 → t.text = some name) ∧
       (name.length = 201 → ∃ s, t.text = some s ∧ s.length = 200 ∧
         s.data = name.data.take 200))) ∧
    (∀ (md : Int) (e : UINode) (d : Nat) (t : TreeNode) (v : String),
      get_element_info md e d = some t → e.typeRead = some "Edit" →
      e.valueRead = some v → v ≠ "" →
      (t.value = some (v.take 200) ∧
       (v.length ≤ 200 → t.value = some v) ∧
       (v.length = 201 → ∃ s, t.value = some s ∧ s.length = 200 ∧
         s.data = v.data.take 200))) ∧
    (∀ (q : String) (ct : Option String) (n : UINode) (m : SearchMatch) (name : String),
      m ∈ n.selfMatches q ct → n.nameRead = some name →
      (m.text = name.take 200 ∧
       (name.length ≤ 200 → m.text = name) ∧
       (name.length = 201 → m.text.length = 200 ∧ m.text.data = name.data.take 200))) := by
  refine ⟨?_, ?_, ?_⟩
  · intro md e d t name h hn hne
    obtain ⟨nR, tR, rR, vR, ok, cs⟩ := e
    obtain ⟨name2, ctype, hn2, ht2, hle, hza, htt⟩ := gei_some_inv h
    simp only [UINode.nameRead] at hn
    rw [hn2] at hn
    obtain rfl := Option.some.inj hn
    have htext : t.text = some (name2.take 200) := by
      rw [htt]
      simp only [TreeNode.text]
      unfold text_of
      rw [if_pos hne]
    refine ⟨htext, ?_, ?_⟩
    · intro hlen
      rw [htext, take_of_le name2 200 hlen]
    · intro hlen
      refine ⟨name2.take 200, htext, ?_, String.data_take name2 200⟩
      rw [take_length, hlen]
      decide
  · intro md e d t v h ht hv hvne
    obtain ⟨nR, tR, rR, vR, ok, cs⟩ := e
    obtain ⟨name2, ctype, hn2, ht2, hle, hza, htt⟩ := gei_some_inv h
    simp only [UINode.typeRead] at ht
    rw [ht2] at ht
    obtain rfl := Option.some.inj ht
    simp only [UINode.valueRead] at hv
    subst hv
    have hval : t.value = some (v.take 200) := by
      rw [htt]
      simp only [TreeNode.value]
      unfold value_of
      rw [if_pos rfl]
      show (if v ≠ "" then some (v.take 200) else none) = some (v.take 200)
      rw [if_pos hvne]
    refine ⟨hval, ?_, ?_⟩
    · intro hlen
      rw [hval, take_of_le v 200 hlen]
    · intro hlen
      refine ⟨v.take 200, hval, ?_, String.data_take v 200⟩
      rw [take_length, hlen]
      decide
  · intro q ct n m name hm hn
    obtain ⟨name2, ty, hn2, hty, hcont, htok, hmeq⟩ := selfMatches_inv hm
    rw [hn2] at hn
    obtain rfl := Option.some.inj hn
    have htext : m.text = name2.take 200 := by rw [hmeq]
    refine ⟨htext, ?_, ?_⟩
    · intro hlen
      rw [htext, take_of_le name2 200 hlen]
    · intro hlen
      constructor
      · rw [htext, take_length, hlen]
        decide
      · rw [htext, String.data_take]

/-- Witness for C9: the 201-character name is cut to its first 200
characters by the extraction. -/
theorem claim_C9_witness :
    ((TreeNode.mk (some (name201.take 200)) none none [] "Text").text =
      some (name201.take 200) ∧
     (name201.length ≤ 200 →
      (TreeNode.mk (some (name201.take 200)) none none [] "Text").text = some name201) ∧
     (name201.length = 201 →
      ∃ s, (TreeNode.mk (some (name201.take 200)) none none [] "Text").text = some s ∧
        s.length = 200 ∧ s.data = name201.data.take 200)) :=
  claim_C9.1 5 node201 0 (TreeNode.mk (some (name201.take 200)) none none [] "Text")
    name201 (by rfl) rfl (by decide)

/-- C10 (confirmed): `keyboard_action` with action `type` and an empty
text returns "Error: text required" and performs no injection, and the
empty string is indistinguishable from an absent argument for every
action (Python falsiness of `""`), so the empty string can never be
typed; analogously `press` with an empty key and `hotkey` with an empty
key list are rejected. -/
theorem claim_C10 (action : String) (text key : Option String)
    (keys : Option (List String)) :
    keyboard_action "type" (some "") key keys = ("Error: text required", none) ∧
    keyboard_action "type" none key keys = ("Error: text required", none) ∧
    keyboard_action action (some "") key keys = keyboard_action action none key keys ∧
    keyboard_action "press" text (some "") keys = ("Error: key required", none) ∧
    keyboard_action "press" text none keys = ("Error: key required", none) ∧
    keyboard_action action text (some "") keys = keyboard_action action text none keys ∧
    keyboard_action "hotkey" text key (some []) = ("Error: keys required", none) ∧
    keyboard_action "hotkey" text key none = ("Error: keys required", none) ∧
    keyboard_action action text key (some []) = keyboard_action action text key none := by
  have h1 : truthyStr (some "") = false := rfl
  have h2 : truthyStr (none : Option String) = false := rfl
  have h3 : truthyList (some []) = false := rfl
  have h4 : truthyList (none : Option (List String)) = false := rfl
  refine ⟨?_, ?_, ?_, ?_, ?_, ?_, ?_, ?_, ?_⟩ <;>
    simp [keyboard_action, h1, h2, h3, h4]
